import Mathlib

/-!
Verification development for the goto-hacks-2025 documentation-generator
repository.  The Python sources are shallowly embedded: pure shaping code
becomes Lean functions, and every external effect (the `requests` HTTP
library, the Milvus vector client, the `json` parser) is modelled as an
explicit environment argument whose outcomes the theorems quantify over.
A Python exception raised by an external call is modelled as the `error`
case of `Except String`; a caught exception is a `match` on that case.
JSON values are modelled by the `Json` inductive below; `json.dumps` is
modelled by returning the `Json` value itself (the claims only speak about
the keys and fields of the serialized object, never about whitespace of
the serialized text).  Python floats that are merely passed through
(similarity scores, embedding coordinates) are modelled as integers, since
no arithmetic is ever performed on them by this code.
-/

/-- Model of a Python JSON value (`dict` keys keep insertion order,
exactly as Python dicts do). -/
inductive Json where
  | null : Json
  | bool : Bool → Json
  | int : Int → Json
  | str : String → Json
  | arr : List Json → Json
  | obj : List (String × Json) → Json

/-- Keys of a JSON object, in insertion order ([] for non-objects). -/
def jsonKeys : Json → List String
  | Json.obj fs => fs.map Prod.fst
  | _ => []

/-- Model of Python `dict.get(k, default)` on the field list of an
object (first matching key wins; Python dict keys are unique). -/
def jgetD : List (String × Json) → String → Json → Json
  | [], _, default => default
  | (k2, v) :: rest, k, default => if k = k2 then v else jgetD rest k default

/-- Model of Python `dict.get(k)` (returns `None`, i.e. `Json.null`, when absent). -/
def jget (fs : List (String × Json)) (k : String) : Json :=
  jgetD fs k Json.null

/-- Python truthiness of a JSON value (`if data.get("license"):` style tests). -/
def jTruthy : Json → Bool
  | Json.null => false
  | Json.bool b => b
  | Json.int n => n != 0
  | Json.str s => s != ""
  | Json.arr xs => !xs.isEmpty
  | Json.obj fs => !fs.isEmpty

/-- Model of a Python loop that shapes each element and raises on a bad
one: `some` is the fully shaped list, `none` is the raised exception. -/
def mapOption (f : α → Option β) : List α → Option (List β)
  | [] => some []
  | x :: xs =>
    match f x, mapOption f xs with
    | some y, some ys => some (y :: ys)
    | _, _ => none

/-- Model of an HTTP response as seen by the code: `status_code`,
`response.json()` (the `body`) and `response.text`. -/
structure HttpResp where
  status_code : Nat
  body : Json
  text : String

/-! ## src/src/tools/rag_tool.py — RAGMilvusTool -/

/-- Modelled from the spec: `src/config/constants.py` is not part of the
source snapshot; the tool's docstring, its description string and
`tests/test_rag_tool.py` all name the single Milvus collection
`combined_item`. -/
def RAG_COLLECTION_NAME : String := "combined_item"

/-- One Milvus search hit: `hit["distance"]` plus the requested output
fields of `hit["entity"]` (`none` models a missing dictionary key, whose
lookup with `[]` raises `KeyError`; `.get` returns a default instead). -/
structure Hit where
  distance : Int
  text : Option String
  source : Option String
deriving DecidableEq, Repr

/-- Environment of `RAGMilvusTool`: the `_initialized` / `_client` state
set up by `_initialize_client`, the outcome of the embedding HTTP call
(`requests.post` + `raise_for_status` + extraction of
`response.json()["data"][0]["embedding"]`), and the outcome of
`client.search` (one hit list per query vector, as pymilvus returns). -/
structure RagEnv where
  initialized : Bool
  clientPresent : Bool
  embedHttp : String → Except String (List Int)
  search : List Int → Except String (List (List Hit))

/-- `RAGMilvusTool._generate_embedding`: wraps any failure of the HTTP
call in a `RuntimeError` with a fixed prefix. -/
def generateEmbedding (env : RagEnv) (text : String) : Except String (List Int) :=
  match env.embedHttp text with
  | Except.ok v => Except.ok v
  | Except.error e => Except.error ("Failed to generate embedding: " ++ e)

/-- Source tag of a hit: `hit["entity"].get("source", "N/A")`. -/
def hitSource (h : Hit) : String :=
  h.source.getD "N/A"

/-- Shape one hit into a result dictionary; `hit["entity"]["text"]`
raises `KeyError` when the field is absent. -/
def shapeHit (h : Hit) : Except String Json :=
  match h.text with
  | none => Except.error "KeyError: text"
  | some t =>
    Except.ok (Json.obj [("score", Json.int h.distance),
                         ("text", Json.str t),
                         ("source", Json.str (hitSource h))])

/-- The result-shaping loop of `_run` over all hits (first failure raises). -/
def shapeHits : List Hit → Except String (List Json)
  | [] => Except.ok []
  | h :: hs =>
    match shapeHit h with
    | Except.error e => Except.error e
    | Except.ok j =>
      match shapeHits hs with
      | Except.error e => Except.error e
      | Except.ok js => Except.ok (j :: js)

/-- Model of Python `sorted(list(sources))` where `sources` is the set of
tags added during the loop: duplicate-free tags, sorted ascending. -/
def sortedSources (tags : List String) : List String :=
  List.insertionSort (· ≤ ·) tags.dedup

/-- The success dictionary built at the end of `RAGMilvusTool._run`. -/
def ragSuccessJson (query : String) (hits : List Hit) (results : List Json) : Json :=
  Json.obj [("query", Json.str query),
            ("collection", Json.str RAG_COLLECTION_NAME),
            ("results_count", Json.int (Int.ofNat results.length)),
            ("sources_found", Json.arr ((sortedSources (hits.map hitSource)).map Json.str)),
            ("results", Json.arr results)]

/-- Body of the `try:` block of `RAGMilvusTool._run`: embedding call,
client check, vector search, `search_results[0]` (an `IndexError` when
the search returned no per-query lists), then result shaping. -/
def ragRunInner (env : RagEnv) (query : String) : Except String Json :=
  match generateEmbedding env query with
  | Except.error e => Except.error e
  | Except.ok qv =>
    if env.clientPresent = false then
      Except.error "Milvus client not initialized"
    else
      match env.search qv with
      | Except.error e => Except.error e
      | Except.ok srs =>
        match srs with
        | [] => Except.error "list index out of range"
        | hits :: _ =>
          match shapeHits hits with
          | Except.error e => Except.error e
          | Except.ok results => Except.ok (ragSuccessJson query hits results)

/-- `RAGMilvusTool._run`: availability check first, then the `try` body
with every exception caught and rendered as an error dictionary. -/
def ragRun (env : RagEnv) (query : String) : Json :=
  if env.initialized = false then
    Json.obj [("error", Json.str "RAG Milvus tool not available. Check database path and initialization.")]
  else
    match ragRunInner env query with
    | Except.ok j => j
    | Except.error e =>
      Json.obj [("error", Json.str ("Error searching knowledge base: " ++ e)),
                ("query", Json.str query)]

/-! ## src/github_mcp_tool.py — GitLabMCPTool

The `requests` library is modelled by the environment function `httpGet`
mapping a URL and its query parameters to either a response or a raised
exception.  The `PRIVATE-TOKEN` header is the `token` field of the
environment; it does not influence which URL is requested, so it is not
repeated in the `httpGet` arguments. -/

/-- Hexadecimal digit used by percent-encoding (uppercase, as
`urllib.parse.quote_plus` produces). -/
def hexDigit (n : Nat) : Char :=
  if n < 10 then Char.ofNat (48 + n) else Char.ofNat (55 + n)

/-- UTF-8 encoding of one character, as a list of byte values. -/
def charUtf8Bytes (c : Char) : List Nat :=
  let n := c.toNat
  if n < 0x80 then [n]
  else if n < 0x800 then
    [0xC0 ||| (n >>> 6), 0x80 ||| (n &&& 0x3F)]
  else if n < 0x10000 then
    [0xE0 ||| (n >>> 12), 0x80 ||| ((n >>> 6) &&& 0x3F), 0x80 ||| (n &&& 0x3F)]
  else
    [0xF0 ||| (n >>> 18), 0x80 ||| ((n >>> 12) &&& 0x3F),
     0x80 ||| ((n >>> 6) &&& 0x3F), 0x80 ||| (n &&& 0x3F)]

/-- Encoding of one byte by `urllib.parse.quote_plus`: alphanumerics and
`_.-~` stay, a space becomes `+`, everything else (including `/`) is
percent-encoded. -/
def quotePlusByte (b : Nat) : String :=
  if (48 ≤ b ∧ b ≤ 57) ∨ (65 ≤ b ∧ b ≤ 90) ∨ (97 ≤ b ∧ b ≤ 122)
      ∨ b = 95 ∨ b = 46 ∨ b = 45 ∨ b = 126 then
    String.mk [Char.ofNat b]
  else if b = 32 then "+"
  else String.mk ['%', hexDigit (b / 16), hexDigit (b % 16)]

/-- Model of `urllib.parse.quote_plus` over the UTF-8 bytes of a string. -/
def quotePlus (s : String) : String :=
  String.join ((s.data.flatMap charUtf8Bytes).map quotePlusByte)

/-- URL requested by `_get_project_info`. -/
def projectInfoUrl (gitlab_url project : String) : String :=
  gitlab_url ++ "/api/v4/projects/" ++ quotePlus project

/-- URL requested by `_get_file_structure`. -/
def treeUrl (gitlab_url project : String) : String :=
  gitlab_url ++ "/api/v4/projects/" ++ quotePlus project ++ "/repository/tree"

/-- URL requested by `_get_recent_commits`. -/
def commitsUrl (gitlab_url project : String) : String :=
  gitlab_url ++ "/api/v4/projects/" ++ quotePlus project ++ "/repository/commits"

/-- URL requested by `_get_readme` for one candidate README filename. -/
def fileRawUrl (gitlab_url project filename : String) : String :=
  gitlab_url ++ "/api/v4/projects/" ++ quotePlus project
    ++ "/repository/files/" ++ quotePlus filename ++ "/raw"

/-- Environment of `GitLabMCPTool`: the `GITLAB_URL` and `GITLAB_TOKEN`
environment variables (`gitlab_url` holds the result of
`os.getenv('GITLAB_URL', 'https://source.golabs.io')`), and the outcome
of every `requests.get(url, params=...)` call. -/
structure GitLabEnv where
  gitlab_url : String
  token : String
  httpGet : String → List (String × String) → Except String HttpResp

/-- Field list of the project-info dictionary built from a 200 response
whose body is the object `fs` (each entry is `data.get(...)`). -/
def projectInfoFields (fs : List (String × Json)) : Except String Json :=
  let licenseName : Except String Json :=
    if jTruthy (jget fs "license") then
      match jget fs "license" with
      | Json.obj lfs => Except.ok (jget lfs "name")
      | _ => Except.error "AttributeError: license value has no attribute get"
    else
      Except.ok Json.null
  match licenseName with
  | Except.error e => Except.error e
  | Except.ok ln =>
      Except.ok (Json.obj
        [("id", jget fs "id"),
         ("name", jget fs "name"),
         ("path", jget fs "path"),
         ("path_with_namespace", jget fs "path_with_namespace"),
         ("description", jget fs "description"),
         ("default_branch", jget fs "default_branch"),
         ("visibility", jget fs "visibility"),
         ("star_count", jget fs "star_count"),
         ("forks_count", jget fs "forks_count"),
         ("open_issues_count", jget fs "open_issues_count"),
         ("topics", jgetD fs "topics" (Json.arr [])),
         ("created_at", jget fs "created_at"),
         ("last_activity_at", jget fs "last_activity_at"),
         ("web_url", jget fs "web_url"),
         ("readme_url", jget fs "readme_url"),
         ("license", ln)])

/-- `GitLabMCPTool._get_project_info`: token check, GET, then shaping of
the 200 body; every raised exception is caught and rendered as an error
dictionary. -/
def getProjectInfo (env : GitLabEnv) (project : String) : Json :=
  if env.token = "" then
    Json.obj [("error", Json.str "GITLAB_TOKEN not set in environment")]
  else
    match env.httpGet (projectInfoUrl env.gitlab_url project) [] with
    | Except.error e => Json.obj [("error", Json.str e)]
    | Except.ok resp =>
      if resp.status_code = 200 then
        match resp.body with
        | Json.obj fs =>
          match projectInfoFields fs with
          | Except.ok info => info
          | Except.error e => Json.obj [("error", Json.str e)]
        | _ => Json.obj [("error", Json.str "AttributeError: response body has no attribute get")]
      else
        Json.obj [("error", Json.str ("Failed to fetch project info: "
          ++ toString resp.status_code ++ " - " ++ resp.text))]

/-- Shaping of one entry of the repository tree (`item.get(...)`); a
non-dictionary item makes `item.get` raise. -/
def shapeTreeItem : Json → Option Json
  | Json.obj fs =>
    some (Json.obj [("name", jget fs "name"),
                    ("path", jget fs "path"),
                    ("type", jget fs "type"),
                    ("mode", jget fs "mode")])
  | _ => none

/-- Shaping of the 200 body of the tree request: keep at most the first
20 items (`data[:20]`) and shape each one; a non-list body or a
non-dictionary item raises (caught into an error dictionary). -/
def shapeTreeBody : Json → Json
  | Json.arr data =>
    match mapOption shapeTreeItem (data.take 20) with
    | some items => Json.obj [("files", Json.arr items)]
    | none => Json.obj [("error", Json.str "AttributeError: tree item has no attribute get")]
  | _ => Json.obj [("error", Json.str "TypeError: response body is not a list")]

/-- Handling of the tree response by `_get_file_structure`. -/
def shapeTreeResp (resp : HttpResp) : Json :=
  if resp.status_code = 200 then
    shapeTreeBody resp.body
  else
    Json.obj [("error", Json.str ("Failed to fetch file structure: "
      ++ toString resp.status_code))]

/-- `GitLabMCPTool._get_file_structure`: GET the tree with `per_page=20`
and shape the response; every raised exception is caught and rendered as
an error dictionary. -/
def getFileStructure (env : GitLabEnv) (project : String) (path : String) : Json :=
  match env.httpGet (treeUrl env.gitlab_url project) [("path", path), ("per_page", "20")] with
  | Except.error e => Json.obj [("error", Json.str e)]
  | Except.ok resp => shapeTreeResp resp

/-- Shaping of one commit (`commit.get(...)`): the `id` value is sliced
with `[:7]`, which truncates a string or a list and raises on any other
present value; the remaining fields are passed through with `""` as the
missing-key default. -/
def shapeCommit : Json → Option Json
  | Json.obj fs =>
    match jgetD fs "id" (Json.str "") with
    | Json.str s => some (Json.obj
        [("id", Json.str (String.mk (s.data.take 7))),
         ("short_id", jgetD fs "short_id" (Json.str "")),
         ("title", jgetD fs "title" (Json.str "")),
         ("message", jgetD fs "message" (Json.str "")),
         ("author_name", jgetD fs "author_name" (Json.str "")),
         ("authored_date", jgetD fs "authored_date" (Json.str "")),
         ("web_url", jgetD fs "web_url" (Json.str ""))])
    | Json.arr xs => some (Json.obj
        [("id", Json.arr (xs.take 7)),
         ("short_id", jgetD fs "short_id" (Json.str "")),
         ("title", jgetD fs "title" (Json.str "")),
         ("message", jgetD fs "message" (Json.str "")),
         ("author_name", jgetD fs "author_name" (Json.str "")),
         ("authored_date", jgetD fs "authored_date" (Json.str "")),
         ("web_url", jgetD fs "web_url" (Json.str ""))])
    | _ => none
  | _ => none

/-- Shaping of the 200 body of the commits request: the loop iterates
over ALL of `data` — there is no client-side `[:limit]` truncation; a
non-list body or a bad commit entry raises (caught into a one-element
error list). -/
def shapeCommitsBody : Json → List Json
  | Json.arr data =>
    match mapOption shapeCommit data with
    | some commits => commits
    | none => [Json.obj [("error", Json.str "TypeError: commit id value is not sliceable")]]
  | _ => [Json.obj [("error", Json.str "AttributeError: commit entry has no attribute get")]]

/-- Handling of the commits response by `_get_recent_commits`. -/
def shapeCommitsResp (resp : HttpResp) : List Json :=
  if resp.status_code = 200 then
    shapeCommitsBody resp.body
  else
    [Json.obj [("error", Json.str ("Failed to fetch commits: " ++ toString resp.status_code))]]

/-- `GitLabMCPTool._get_recent_commits`: GET the commits with
`per_page=limit` and shape the response; every raised exception is
caught and rendered as a single-element error list. -/
def getRecentCommits (env : GitLabEnv) (project : String) (limit : Nat) : List Json :=
  match env.httpGet (commitsUrl env.gitlab_url project) [("per_page", toString limit)] with
  | Except.error e => [Json.obj [("error", Json.str e)]]
  | Except.ok resp => shapeCommitsResp resp

/-- The candidate README filenames tried in order by `_get_readme`. -/
def readmeFilenames : List String := ["README.md", "README", "readme.md", "Readme.md"]

/-- Python `response.text[:1000] + ("..." if len(response.text) > 1000 else "")`
(character-based slicing, as Python string slicing is). -/
def truncateReadme (t : String) : String :=
  String.mk (t.data.take 1000) ++ (if 1000 < t.data.length then "..." else "")

/-- One iteration of the filename loop of `_get_readme`: fetch the file
from the `main` ref; a 200 yields the truncated text, a 404 retries the
`master` ref.  `Except.error` is an exception raised by `requests.get`
(aborting the whole loop), `Except.ok none` means this filename yielded
nothing and the loop moves on. -/
def getReadmeStep (env : GitLabEnv) (project fn : String) : Except String (Option String) :=
  match env.httpGet (fileRawUrl env.gitlab_url project fn) [("ref", "main")] with
  | Except.error e => Except.error e
  | Except.ok resp =>
    if resp.status_code = 200 then
      Except.ok (some (truncateReadme resp.text))
    else if resp.status_code = 404 then
      match env.httpGet (fileRawUrl env.gitlab_url project fn) [("ref", "master")] with
      | Except.error e => Except.error e
      | Except.ok resp2 =>
        if resp2.status_code = 200 then
          Except.ok (some (truncateReadme resp2.text))
        else
          Except.ok none
    else
      Except.ok none

/-- The filename loop of `_get_readme`: first filename that yields wins. -/
def getReadmeLoop (env : GitLabEnv) (project : String) :
    List String → Except String (Option String)
  | [] => Except.ok none
  | fn :: rest =>
    match getReadmeStep env project fn with
    | Except.error e => Except.error e
    | Except.ok (some s) => Except.ok (some s)
    | Except.ok none => getReadmeLoop env project rest

/-- `GitLabMCPTool._get_readme`: the filename loop, the fixed not-found
string, and the caught-exception string. -/
def getReadme (env : GitLabEnv) (project : String) : String :=
  match getReadmeLoop env project readmeFilenames with
  | Except.ok (some s) => s
  | Except.ok none => "README not found or inaccessible"
  | Except.error e => "Error fetching README: " ++ e

/-- `GitLabMCPTool._run`: assembles the four fetches into one result
dictionary.  Each helper catches its own exceptions internally, so the
outer `try` of `_run` never fires in this model. -/
def gitlabRun (env : GitLabEnv) (project : String) : Json :=
  Json.obj [("project", Json.str project),
            ("info", getProjectInfo env project),
            ("file_structure", getFileStructure env project ""),
            ("recent_commits", Json.arr (getRecentCommits env project 5)),
            ("readme", Json.str (getReadme env project))]

/-! ## src/documentation_agent.py — DocumentationCrew

The CrewAI `Agent` / `Task` / `Crew` values are declarative
configuration; they are embedded as plain records holding the fields the
claims speak about.  The long f-string prompt bodies and the float-valued
sampling temperatures are not modelled (no claim depends on their
contents). -/

/-- Configuration of one `GoToCustomLLM` instance. -/
structure LLMConfig where
  model : String
  endpoint : String
  supportsTools : Bool
deriving DecidableEq, Repr

/-- The CrewAI execution process selector. -/
inductive CrewProcess where
  | sequential : CrewProcess
  | hierarchical : CrewProcess
deriving DecidableEq, Repr

/-- Configuration of one CrewAI agent: role, the names of its tools, and
its LLM. -/
structure AgentConfig where
  role : String
  tools : List String
  llm : LLMConfig
  allowDelegation : Bool
deriving DecidableEq, Repr

/-- Configuration of one CrewAI task (identified by the agent it is
assigned to). -/
structure TaskConfig where
  agent : AgentConfig
deriving DecidableEq, Repr

/-- A CrewAI crew: agent list, task list, process. -/
structure CrewConfig where
  agents : List AgentConfig
  tasks : List TaskConfig
  process : CrewProcess
deriving DecidableEq, Repr

/-- The `gpt_oss_llm` instance built in `DocumentationCrew.__init__`
(tool calling, `supports_tools=True`). -/
def gptOssLlm : LLMConfig :=
  { model := "openai/gpt-oss-120b",
    endpoint := "https://litellm-staging.gopay.sh",
    supportsTools := true }

/-- The `sahabat_llm` instance built in `DocumentationCrew.__init__`
(documentation writing, `supports_tools` left at its `False` default). -/
def sahabatLlm : LLMConfig :=
  { model := "GoToCompany/Llama-Sahabat-AI-v2-70B-IT-awq-4bit",
    endpoint := "https://litellm-staging.gopay.sh",
    supportsTools := false }

/-- The `name` field of `GitLabMCPTool`. -/
def gitlabToolName : String := "GitLab Project Analyzer"

/-- `DocumentationCrew.create_gitlab_analyzer_agent`. -/
def gitlabAnalyzerAgent : AgentConfig :=
  { role := "GitLab Data Analyzer",
    tools := [gitlabToolName],
    llm := gptOssLlm,
    allowDelegation := false }

/-- `DocumentationCrew.create_documentation_writer_agent`. -/
def documentationWriterAgent : AgentConfig :=
  { role := "Technical Documentation Writer",
    tools := [],
    llm := sahabatLlm,
    allowDelegation := false }

/-- The crew assembled by `DocumentationCrew.generate_documentation`:
the fetch task (assigned to the analyzer) and the writing task (assigned
to the writer), run with `Process.sequential`.  The crew shape does not
depend on the project argument. -/
def generateDocumentationCrew (_project : String) : CrewConfig :=
  { agents := [gitlabAnalyzerAgent, documentationWriterAgent],
    tasks := [{ agent := gitlabAnalyzerAgent }, { agent := documentationWriterAgent }],
    process := CrewProcess.sequential }

/-! ### Result post-processing of `generate_documentation`

Python string primitives used by the fence-stripping code are modelled
character-exactly over `String.data`.  `json.loads` is an external
library function and is modelled as an explicit `parse` argument: `some`
is the parsed value, `none` is a raised `json.JSONDecodeError`. -/

/-- The Python whitespace set stripped by `str.strip()`. -/
def pyWhitespace (c : Char) : Bool :=
  c = ' ' ∨ c = '\t' ∨ c = '\n' ∨ c = '\r' ∨ c = '\x0b' ∨ c = '\x0c'

/-- Model of Python `str.strip()`. -/
def pyStrip (s : String) : String :=
  String.mk (((s.data.dropWhile pyWhitespace).reverse.dropWhile pyWhitespace).reverse)

/-- Model of Python `str.startswith(prefix)`. -/
def pyStartsWith (s pre : String) : Bool :=
  pre.data.isPrefixOf s.data

/-- Lowest character index where `sub` occurs in the list (Python
`str.find`, with `none` for the `-1` case). -/
def findSub (sub : List Char) : List Char → Option Nat
  | [] => if sub.isEmpty then some 0 else none
  | c :: cs =>
    if sub.isPrefixOf (c :: cs) then some 0
    else (findSub sub cs).map (· + 1)

/-- Greatest character index where `sub` occurs in the list (Python
`str.rfind`, with `none` for the `-1` case). -/
def rfindSub (sub : List Char) : List Char → Option Nat
  | [] => if sub.isEmpty then some 0 else none
  | c :: cs =>
    match rfindSub sub cs with
    | some n => some (n + 1)
    | none => if sub.isPrefixOf (c :: cs) then some 0 else none

/-- The three-backtick fence marker searched for by `rfind`. -/
def fenceMarker : List Char := ("```").data

/-- The fence-stripping step of `generate_documentation`: when the
stripped result starts with a fence, cut between the first newline and
the last fence marker and strip the cut (`result_str[start+1:end].strip()`);
when `find` or `rfind` fails (`-1`), the string is left unchanged. -/
def stripFence (result_str : String) : String :=
  if pyStartsWith (pyStrip result_str) ("```") then
    match findSub ['\n'] result_str.data, rfindSub fenceMarker result_str.data with
    | some start, some stop =>
      pyStrip (String.mk ((result_str.data.take stop).drop (start + 1)))
    | _, _ => result_str
  else result_str

/-- The fallback dictionary returned when the crew output cannot be
parsed as JSON. -/
def unparsedFallback (project result_str : String) : Json :=
  Json.obj [("project", Json.str project),
            ("documentation", Json.str result_str),
            ("format", Json.str "text"),
            ("note", Json.str "Documentation could not be parsed as JSON, returning as text")]

/-- The result post-processing of `DocumentationCrew.generate_documentation`:
fence-strip the raw crew output, try `json.loads` on it, and fall back to
the wrapper dictionary built from the RAW output on a decode error. -/
def postProcessResult (parse : String → Option Json) (project result_str : String) : Json :=
  match parse (stripFence result_str) with
  | some j => j
  | none => unparsedFallback project result_str

/-! ## src/app.py — agent counting in the Streamlit sidebar -/

/-- The `agent_count` computation of `app.py`: two mandatory agents
(GitLab analyzer and writer) plus one per enabled optional integration
(Google Drive search, internal knowledge base). -/
def agentCount (enable_drive enable_rag : Bool) : Nat :=
  2 + (if enable_drive then 1 else 0) + (if enable_rag then 1 else 0)

/-! ## Spec-side definition for the code-host claim -/

/-- Modelled from the spec: the spec asserts the metadata fetcher can
target "GitLab or GitHub".  The GitHub REST API endpoint for project
metadata is `https://api.github.com/repos/{owner}/{repo}`; this
definition renders that URL for a project path, to be compared with the
URL the code actually requests. -/
def githubProjectInfoUrl (project : String) : String :=
  "https://api.github.com/repos/" ++ project

/-! ## Concrete environments used by witnesses and counterexamples -/

/-- A RAG environment whose database was never found (`_initialized`
stays false). -/
def ragEnvBad : RagEnv :=
  { initialized := false,
    clientPresent := false,
    embedHttp := fun _ => Except.error ("connection refused"),
    search := fun _ => Except.error ("connection refused") }

/-- A fully working RAG environment returning two hits, the second one
without a `source` field. -/
def ragEnvW : RagEnv :=
  { initialized := true,
    clientPresent := true,
    embedHttp := fun _ => Except.ok [1, 2],
    search := fun _ => Except.ok
      [[{ distance := 3, text := some ("alpha"), source := some ("dge") },
        { distance := 2, text := some ("beta"), source := none }]] }

/-- The hit list returned by `ragEnvW`. -/
def ragHitsW : List Hit :=
  [{ distance := 3, text := some ("alpha"), source := some ("dge") },
   { distance := 2, text := some ("beta"), source := none }]

/-- The shaped result dictionaries for `ragHitsW`. -/
def ragResultsW : List Json :=
  [Json.obj [("score", Json.int 3), ("text", Json.str ("alpha")), ("source", Json.str ("dge"))],
   Json.obj [("score", Json.int 2), ("text", Json.str ("beta")), ("source", Json.str ("N/A"))]]

/-- A GitLab environment whose every HTTP call raises. -/
def gitlabEnvDown : GitLabEnv :=
  { gitlab_url := "https://source.golabs.io",
    token := "token",
    httpGet := fun _ _ => Except.error ("connection refused") }

/-- A commits response carrying six commit entries, more than the five
requested through `per_page`. -/
def sixCommitsResp : HttpResp :=
  { status_code := 200,
    body := Json.arr (List.replicate 6 (Json.obj [("id", Json.str ("abcdef123456"))])),
    text := "" }

/-- A GitLab environment whose server ignores `per_page` and returns six
commits. -/
def sixCommitsEnv : GitLabEnv :=
  { gitlab_url := "https://source.golabs.io",
    token := "token",
    httpGet := fun _ _ => Except.ok sixCommitsResp }

/-- A commits response with a single commit entry. -/
def oneCommitResp : HttpResp :=
  { status_code := 200,
    body := Json.arr [Json.obj [("id", Json.str ("abcdef123456"))]],
    text := "" }

/-- A GitLab environment whose server returns a single commit. -/
def oneCommitEnv : GitLabEnv :=
  { gitlab_url := "https://source.golabs.io",
    token := "token",
    httpGet := fun _ _ => Except.ok oneCommitResp }

/-- The shaped form of the single commit of `oneCommitEnv` (its id
truncated to seven characters, everything else defaulted to `""`). -/
def oneShapedCommit : Json :=
  Json.obj [("id", Json.str ("abcdef1")),
            ("short_id", Json.str ("")),
            ("title", Json.str ("")),
            ("message", Json.str ("")),
            ("author_name", Json.str ("")),
            ("authored_date", Json.str ("")),
            ("web_url", Json.str (""))]

/-! ## Helper lemmas -/

/-- A shaping loop that succeeds keeps the list length. -/
theorem mapOption_length (f : α → Option β) :
    ∀ (l : List α) (l2 : List β), mapOption f l = some l2 → l2.length = l.length := by
  intro l
  induction l with
  | nil => intro l2 h; simp [mapOption] at h; simp [← h]
  | cons x xs ih =>
    intro l2 h
    simp only [mapOption] at h
    cases hx : f x with
    | none => rw [hx] at h; simp at h
    | some y =>
      rw [hx] at h
      cases hxs : mapOption f xs with
      | none => rw [hxs] at h; simp at h
      | some ys =>
        rw [hxs] at h
        simp at h
        rw [← h]
        simp [ih ys hxs]

/-- Every element of a successful shaping loop comes from an element of
the input list. -/
theorem mapOption_mem (f : α → Option β) :
    ∀ (l : List α) (l2 : List β), mapOption f l = some l2 →
      ∀ y ∈ l2, ∃ x ∈ l, f x = some y := by
  intro l
  induction l with
  | nil => intro l2 h; simp [mapOption] at h; subst h; intro y hy; simp at hy
  | cons x xs ih =>
    intro l2 h y hy
    simp only [mapOption] at h
    cases hx : f x with
    | none => rw [hx] at h; simp at h
    | some z =>
      rw [hx] at h
      cases hxs : mapOption f xs with
      | none => rw [hxs] at h; simp at h
      | some ys =>
        rw [hxs] at h
        simp at h
        rw [← h] at hy
        cases hy with
        | head => exact ⟨x, by simp, by rw [hx]⟩
        | tail _ hmem =>
          obtain ⟨x2, hx2, hfx2⟩ := ih ys hxs y hmem
          exact ⟨x2, by simp [hx2], hfx2⟩

/-- The sorted-distinct source list is sorted. -/
theorem sortedSources_sorted (tags : List String) :
    List.Sorted (· ≤ ·) (sortedSources tags) :=
  List.sorted_insertionSort _ _

/-- The sorted-distinct source list has no duplicates. -/
theorem sortedSources_nodup (tags : List String) :
    (sortedSources tags).Nodup := by
  unfold sortedSources
  exact (List.perm_insertionSort (· ≤ ·) tags.dedup).nodup_iff.mpr (List.nodup_dedup tags)

/-- Membership in the sorted-distinct source list is membership among the
tags. -/
theorem sortedSources_mem (tags : List String) (s : String) :
    s ∈ sortedSources tags ↔ s ∈ tags := by
  unfold sortedSources
  rw [(List.perm_insertionSort _ _).mem_iff, List.mem_dedup]

/-! ## Claim theorems -/

/-- C3: for every project input and every outcome of the HTTP calls,
`GitLabMCPTool._run` returns a JSON object that is either a single-key
error object or an object with exactly the keys `project`, `info`,
`file_structure`, `recent_commits` and `readme` — the client always
covers project metadata, file tree, commits and README. -/
theorem gitlabRun_covers_all_categories (env : GitLabEnv) (project : String) :
    jsonKeys (gitlabRun env project) = ["error"]
    ∨ jsonKeys (gitlabRun env project)
        = ["project", "info", "file_structure", "recent_commits", "readme"] :=
  Or.inr rfl

/-- C4: `generate_documentation` always builds the crew with
`Process.sequential`, and the task list puts the GitLab data-fetch task
(assigned to the GitLab Data Analyzer) strictly before the
documentation-writing task (assigned to the Technical Documentation
Writer), for every project input. -/
theorem generateDocumentationCrew_sequential_fetch_first (project : String) :
    (generateDocumentationCrew project).process = CrewProcess.sequential
    ∧ (generateDocumentationCrew project).tasks
        = [{ agent := gitlabAnalyzerAgent }, { agent := documentationWriterAgent }]
    ∧ ((generateDocumentationCrew project).tasks.map fun t => t.agent.role)
        = ["GitLab Data Analyzer", "Technical Documentation Writer"] :=
  ⟨rfl, rfl, rfl⟩

/-- C5: the documentation-writer agent renders with a different model
than the tool-calling data-analyzer agent: their LLM model names are
distinct (and only the analyzer's LLM has tool support enabled). -/
theorem writer_model_distinct_from_analyzer_model :
    documentationWriterAgent.llm.model ≠ gitlabAnalyzerAgent.llm.model
    ∧ gitlabAnalyzerAgent.llm.supportsTools = true
    ∧ documentationWriterAgent.llm.supportsTools = false := by
  refine ⟨?_, rfl, rfl⟩
  decide

/-- C6 counterexample: with both optional integrations enabled
(`enable_drive = true`, `enable_rag = true`) the active agent count is
neither 2 nor 3 — the claim "the number of active agents is always 2 or
3" fails on `app.py`. -/
theorem agentCount_both_enabled_not_two_or_three :
    ¬ (agentCount true true = 2 ∨ agentCount true true = 3) := by
  decide

/-- C6 (amended): the number of active agents is two mandatory agents
plus one per enabled optional integration, hence between 2 and 4; it is
2 or 3 exactly when at most one optional integration is enabled. -/
theorem agentCount_two_to_four (enable_drive enable_rag : Bool) :
    2 ≤ agentCount enable_drive enable_rag
    ∧ agentCount enable_drive enable_rag ≤ 4
    ∧ ((agentCount enable_drive enable_rag = 2 ∨ agentCount enable_drive enable_rag = 3)
        ↔ ¬ (enable_drive = true ∧ enable_rag = true)) := by
  cases enable_drive <;> cases enable_rag <;> decide

/-- C7 counterexample: even when the configured host is pointed at
GitHub, the URL the client requests for project metadata is the GitLab
REST API v4 path, not the GitHub REST API endpoint — no configuration
makes the client fetch from a GitHub API. -/
theorem projectInfoUrl_never_github_api :
    projectInfoUrl "https://api.github.com" "octocat/Hello-World"
        ≠ githubProjectInfoUrl "octocat/Hello-World"
    ∧ projectInfoUrl "https://api.github.com" "octocat/Hello-World"
        = "https://api.github.com/api/v4/projects/octocat%2FHello-World"
    ∧ githubProjectInfoUrl "octocat/Hello-World"
        = "https://api.github.com/repos/octocat/Hello-World" := by
  refine ⟨?_, ?_, rfl⟩ <;> decide

/-- C7 (amended): the metadata fetcher targets a single code-host API,
GitLab REST v4: every request URL is the configured `GITLAB_URL` host
followed by a fixed GitLab API v4 path, so the URL is fully determined
by the configured host and the project input. -/
theorem request_urls_are_gitlab_v4 (base project filename : String) :
    projectInfoUrl base project
        = base ++ "/api/v4/projects/" ++ quotePlus project
    ∧ treeUrl base project
        = base ++ "/api/v4/projects/" ++ quotePlus project ++ "/repository/tree"
    ∧ commitsUrl base project
        = base ++ "/api/v4/projects/" ++ quotePlus project ++ "/repository/commits"
    ∧ fileRawUrl base project filename
        = base ++ "/api/v4/projects/" ++ quotePlus project
            ++ "/repository/files/" ++ quotePlus filename ++ "/raw" :=
  ⟨rfl, rfl, rfl, rfl⟩

/-- C10: `generate_documentation` never raises on unparsable crew
output: when the fence-stripped result string parses as JSON the parsed
value is returned, and otherwise a dictionary with exactly the keys
`project`, `documentation`, `format` and `note` is returned, whose
`documentation` is the raw result string and whose `format` is `text`. -/
theorem postProcessResult_parse_or_fallback (parse : String → Option Json)
    (project result_str : String) :
    (∀ j, parse (stripFence result_str) = some j →
        postProcessResult parse project result_str = j)
    ∧ (parse (stripFence result_str) = none →
        postProcessResult parse project result_str
          = Json.obj [("project", Json.str project),
                      ("documentation", Json.str result_str),
                      ("format", Json.str ("text")),
                      ("note", Json.str ("Documentation could not be parsed as JSON, returning as text"))]
        ∧ jsonKeys (postProcessResult parse project result_str)
            = ["project", "documentation", "format", "note"]) := by
  constructor
  · intro j h
    simp [postProcessResult, h]
  · intro h
    constructor
    · simp [postProcessResult, h, unparsedFallback]
    · simp [postProcessResult, h, unparsedFallback, jsonKeys]

/-- Witness for C10: on a plain-text crew output that no parse accepts,
the fallback dictionary is returned. -/
theorem postProcessResult_fallback_witness :
    postProcessResult (fun _ => none) ("group/proj") ("plain text output")
      = Json.obj [("project", Json.str ("group/proj")),
                  ("documentation", Json.str ("plain text output")),
                  ("format", Json.str ("text")),
                  ("note", Json.str ("Documentation could not be parsed as JSON, returning as text"))] :=
  ((postProcessResult_parse_or_fallback (fun _ => none) ("group/proj") ("plain text output")).2 rfl).1

/-- A successful `_run` body always produces the success dictionary
shape. -/
theorem ragRunInner_ok_shape (env : RagEnv) (query : String) (j : Json)
    (h : ragRunInner env query = Except.ok j) :
    ∃ hits results, j = ragSuccessJson query hits results := by
  unfold ragRunInner at h
  split at h
  · exact Except.noConfusion h
  · split at h
    · exact Except.noConfusion h
    · split at h
      · exact Except.noConfusion h
      · split at h
        · exact Except.noConfusion h
        · split at h
          · exact Except.noConfusion h
          · exact ⟨_, _, (Except.ok.inj h).symm⟩

/-- C1: `RAGMilvusTool._run` never raises.  When the tool is not
initialized the returned object has the single key `error`; when any
pipeline stage fails the returned object has the keys `error` and
`query`; in every case the result is either an object containing an
`error` key or the success object with exactly the keys `query`,
`collection`, `results_count`, `sources_found` and `results`. -/
theorem ragRun_error_or_success_keys (env : RagEnv) (query : String) :
    (env.initialized = false → jsonKeys (ragRun env query) = ["error"])
    ∧ (∀ e, env.initialized = true → ragRunInner env query = Except.error e →
        jsonKeys (ragRun env query) = ["error", "query"])
    ∧ ("error" ∈ jsonKeys (ragRun env query)
        ∨ jsonKeys (ragRun env query)
            = ["query", "collection", "results_count", "sources_found", "results"]) := by
  refine ⟨?_, ?_, ?_⟩
  · intro h
    simp [ragRun, h, jsonKeys]
  · intro e hinit hin
    simp [ragRun, hinit, hin, jsonKeys]
  · cases hinit : env.initialized with
    | false => left; simp [ragRun, hinit, jsonKeys]
    | true =>
      cases hin : ragRunInner env query with
      | error e => left; simp [ragRun, hinit, hin, jsonKeys]
      | ok j =>
        right
        obtain ⟨hits, results, rfl⟩ := ragRunInner_ok_shape env query j hin
        simp [ragRun, hinit, hin, ragSuccessJson, jsonKeys]

/-- Witness for C1: on an environment whose database was never found,
the tool answers with a single-key error object. -/
theorem ragRun_error_witness :
    jsonKeys (ragRun ragEnvBad ("what is DGE")) = ["error"] :=
  (ragRun_error_or_success_keys ragEnvBad ("what is DGE")).1 rfl

/-- A successful shaping run has one result per hit. -/
theorem shapeHits_ok_length : ∀ (hits : List Hit) (results : List Json),
    shapeHits hits = Except.ok results → results.length = hits.length := by
  intro hits
  induction hits with
  | nil =>
    intro results h
    simp only [shapeHits] at h
    rw [← Except.ok.inj h]
    rfl
  | cons x xs ih =>
    intro results h
    simp only [shapeHits] at h
    cases hx : shapeHit x with
    | error e => rw [hx] at h; exact Except.noConfusion h
    | ok j =>
      rw [hx] at h
      cases hxs : shapeHits xs with
      | error e => rw [hxs] at h; exact Except.noConfusion h
      | ok js =>
        rw [hxs] at h
        rw [← Except.ok.inj h]
        simp [ih js hxs]

/-- Every result of a successful shaping run is the shape of one of the
hits. -/
theorem shapeHits_ok_mem : ∀ (hits : List Hit) (results : List Json),
    shapeHits hits = Except.ok results →
      ∀ r ∈ results, ∃ h ∈ hits, shapeHit h = Except.ok r := by
  intro hits
  induction hits with
  | nil =>
    intro results h r hr
    simp only [shapeHits] at h
    rw [← Except.ok.inj h] at hr
    exact absurd hr (List.not_mem_nil r)
  | cons x xs ih =>
    intro results h r hr
    simp only [shapeHits] at h
    cases hx : shapeHit x with
    | error e => rw [hx] at h; exact Except.noConfusion h
    | ok j =>
      rw [hx] at h
      cases hxs : shapeHits xs with
      | error e => rw [hxs] at h; exact Except.noConfusion h
      | ok js =>
        rw [hxs] at h
        rw [← Except.ok.inj h] at hr
        cases hr with
        | head => exact ⟨x, List.mem_cons_self x xs, hx⟩
        | tail _ hmem =>
          obtain ⟨y, hy, hfy⟩ := ih js hxs r hmem
          exact ⟨y, List.mem_cons_of_mem x hy, hfy⟩

/-- A successfully shaped hit carries its score, its text and its
(possibly defaulted) source tag. -/
theorem shapeHit_ok_shape (x : Hit) (r : Json) (h : shapeHit x = Except.ok r) :
    ∃ t, x.text = some t
      ∧ r = Json.obj [("score", Json.int x.distance),
                      ("text", Json.str t),
                      ("source", Json.str (hitSource x))] := by
  unfold shapeHit at h
  cases hx : x.text with
  | none => rw [hx] at h; exact Except.noConfusion h
  | some t =>
    rw [hx] at h
    exact ⟨t, rfl, (Except.ok.inj h).symm⟩

/-- C2: for every successful RAG search, the tool returns the success
dictionary in which every result carries a `score`, a `text` and a
`source` tag (with `N/A` as the default when the hit has no source
field), `results_count` equals the length of `results`, and
`sources_found` is a sorted duplicate-free list containing exactly the
source tags of the hits. -/
theorem ragRun_success_contract (env : RagEnv) (query : String)
    (qv : List Int) (hits : List Hit) (rest : List (List Hit)) (results : List Json)
    (hinit : env.initialized = true)
    (hclient : env.clientPresent = true)
    (hembed : env.embedHttp query = Except.ok qv)
    (hsearch : env.search qv = Except.ok (hits :: rest))
    (hshape : shapeHits hits = Except.ok results) :
    ragRun env query = ragSuccessJson query hits results
    ∧ results.length = hits.length
    ∧ (∀ r ∈ results, ∃ sc t src,
        r = Json.obj [("score", Json.int sc), ("text", Json.str t), ("source", Json.str src)])
    ∧ (∀ h ∈ hits, h.source = none → hitSource h = "N/A")
    ∧ List.Sorted (· ≤ ·) (sortedSources (hits.map hitSource))
    ∧ (sortedSources (hits.map hitSource)).Nodup
    ∧ (∀ s, s ∈ sortedSources (hits.map hitSource) ↔ s ∈ hits.map hitSource) := by
  refine ⟨?_, shapeHits_ok_length hits results hshape, ?_, ?_,
    sortedSources_sorted _, sortedSources_nodup _, fun s => sortedSources_mem _ s⟩
  · simp [ragRun, ragRunInner, generateEmbedding, hinit, hclient, hembed, hsearch, hshape]
  · intro r hr
    obtain ⟨x, hx, hsx⟩ := shapeHits_ok_mem hits results hshape r hr
    obtain ⟨t, htx, rfl⟩ := shapeHit_ok_shape x r hsx
    exact ⟨x.distance, t, hitSource x, rfl⟩
  · intro h _ hs
    simp [hitSource, hs]

/-- Witness for C2: a concrete two-hit search (the second hit without a
source field) evaluates to the success dictionary. -/
theorem ragRun_success_contract_witness :
    ragRun ragEnvW ("telco data") = ragSuccessJson ("telco data") ragHitsW ragResultsW :=
  (ragRun_success_contract ragEnvW ("telco data") [1, 2] ragHitsW [] ragResultsW
    rfl rfl rfl rfl rfl).1

/-- One README-loop step either yields a truncated README text, yields
nothing, or aborts with an exception. -/
theorem getReadmeStep_cases (env : GitLabEnv) (project fn : String) :
    (∃ t, getReadmeStep env project fn = Except.ok (some (truncateReadme t)))
    ∨ getReadmeStep env project fn = Except.ok none
    ∨ (∃ e, getReadmeStep env project fn = Except.error e) := by
  unfold getReadmeStep
  cases h1 : env.httpGet (fileRawUrl env.gitlab_url project fn) [("ref", "main")] with
  | error e => right; right; exact ⟨e, rfl⟩
  | ok resp =>
    by_cases hs2 : resp.status_code = 200
    · left; exact ⟨resp.text, by simp [hs2]⟩
    · by_cases hs4 : resp.status_code = 404
      · cases h2 : env.httpGet (fileRawUrl env.gitlab_url project fn) [("ref", "master")] with
        | error e => right; right; exact ⟨e, by simp [hs2, hs4]⟩
        | ok resp2 =>
          by_cases hs2b : resp2.status_code = 200
          · left; exact ⟨resp2.text, by simp [hs2, hs4, hs2b]⟩
          · right; left; simp [hs2, hs4, hs2b]
      · right; left; simp [hs2, hs4]

/-- The README filename loop either yields a truncated README text,
exhausts all filenames, or aborts with an exception. -/
theorem getReadmeLoop_cases (env : GitLabEnv) (project : String) :
    ∀ fns : List String,
      (∃ t, getReadmeLoop env project fns = Except.ok (some (truncateReadme t)))
      ∨ getReadmeLoop env project fns = Except.ok none
      ∨ (∃ e, getReadmeLoop env project fns = Except.error e) := by
  intro fns
  induction fns with
  | nil => right; left; rfl
  | cons fn rest ih =>
    rcases getReadmeStep_cases env project fn with ⟨t, h⟩ | h | ⟨e, h⟩
    · left; exact ⟨t, by simp [getReadmeLoop, h]⟩
    · simpa [getReadmeLoop, h] using ih
    · right; right; exact ⟨e, by simp [getReadmeLoop, h]⟩

/-- C8: every string `_get_readme` returns is either the truncation of a
fetched README text, the fixed not-found string (returned exactly when
the filename loop exhausts without a hit), or a caught-exception string;
and the truncation keeps the first 1000 characters, appends `...` exactly
when the fetched text is longer than 1000 characters, and never exceeds
1003 characters. -/
theorem getReadme_truncation_contract (env : GitLabEnv) (project : String) :
    ((∃ t, getReadme env project = truncateReadme t)
      ∨ getReadme env project = "README not found or inaccessible"
      ∨ (∃ e, getReadme env project = "Error fetching README: " ++ e))
    ∧ (getReadmeLoop env project readmeFilenames = Except.ok none →
        getReadme env project = "README not found or inaccessible")
    ∧ (∀ t : String,
        (truncateReadme t).length ≤ 1003
        ∧ (1000 < t.length → truncateReadme t = String.mk (t.data.take 1000) ++ "...")
        ∧ (t.length ≤ 1000 → truncateReadme t = t)) := by
  refine ⟨?_, ?_, ?_⟩
  · rcases getReadmeLoop_cases env project readmeFilenames with ⟨t, h⟩ | h | ⟨e, h⟩
    · left; exact ⟨t, by simp [getReadme, h]⟩
    · right; left; simp [getReadme, h]
    · right; right; exact ⟨e, by simp [getReadme, h]⟩
  · intro h
    simp [getReadme, h]
  · intro t
    refine ⟨?_, ?_, ?_⟩
    · unfold truncateReadme
      by_cases h : 1000 < t.data.length
      · rw [if_pos h, String.length_append, String.length_mk]
        have h1 : (t.data.take 1000).length ≤ 1000 := List.length_take_le 1000 t.data
        have h2 : ("..." : String).length = 3 := rfl
        omega
      · rw [if_neg h, String.length_append, String.length_mk]
        have h1 : (t.data.take 1000).length ≤ 1000 := List.length_take_le 1000 t.data
        have h2 : ("" : String).length = 0 := rfl
        omega
    · intro h
      have h2 : 1000 < t.data.length := h
      unfold truncateReadme
      rw [if_pos h2]
    · intro h
      have h2 : ¬ (1000 < t.data.length) := by
        have h3 : t.data.length ≤ 1000 := h
        omega
      unfold truncateReadme
      rw [if_neg h2]
      have h4 : t.data.take 1000 = t.data := List.take_of_length_le h
      rw [h4]
      exact String.append_empty t

/-- Witness for C8: a short README text is returned unchanged by the
truncation, and a dead environment yields one of the contract's cases. -/
theorem getReadme_truncation_witness :
    truncateReadme ("short readme") = "short readme" :=
  ((getReadme_truncation_contract gitlabEnvDown ("group/proj")).2.2 ("short readme")).2.2
    (by decide)

/-- A one-field error object is never the files object. -/
theorem json_error_ne_files (v1 v2 : Json) :
    Json.obj [("error", v1)] ≠ Json.obj [("files", v2)] := by
  intro h
  have hk := congrArg jsonKeys h
  simp only [jsonKeys, List.map_cons, List.map_nil] at hk
  injection hk with h1 _
  exact absurd h1 (by decide)

/-- The shaped tree body never carries more than 20 files. -/
theorem shapeTreeBody_files_bounded (b : Json) (l : List Json)
    (h : shapeTreeBody b = Json.obj [("files", Json.arr l)]) : l.length ≤ 20 := by
  cases b with
  | arr data =>
    simp only [shapeTreeBody] at h
    cases hm : mapOption shapeTreeItem (data.take 20) with
    | some items =>
      rw [hm] at h
      injection h with h1
      injection h1 with h2 h3
      injection h2 with h4 h5
      injection h5 with h6
      rw [← h6, mapOption_length shapeTreeItem (data.take 20) items hm]
      exact List.length_take_le 20 data
    | none => rw [hm] at h; exact absurd h (json_error_ne_files _ _)
  | null => exact absurd h (json_error_ne_files _ _)
  | bool x => exact absurd h (json_error_ne_files _ _)
  | int x => exact absurd h (json_error_ne_files _ _)
  | str x => exact absurd h (json_error_ne_files _ _)
  | obj x => exact absurd h (json_error_ne_files _ _)

/-- `_get_file_structure` never reports more than 20 files. -/
theorem getFileStructure_files_bounded (env : GitLabEnv) (project path : String)
    (l : List Json)
    (h : getFileStructure env project path = Json.obj [("files", Json.arr l)]) :
    l.length ≤ 20 := by
  unfold getFileStructure at h
  cases hr : env.httpGet (treeUrl env.gitlab_url project) [("path", path), ("per_page", "20")] with
  | error e => rw [hr] at h; exact absurd h (json_error_ne_files _ _)
  | ok resp =>
    rw [hr] at h
    have h2 : shapeTreeResp resp = Json.obj [("files", Json.arr l)] := h
    by_cases hs : resp.status_code = 200
    · unfold shapeTreeResp at h2
      rw [if_pos hs] at h2
      exact shapeTreeBody_files_bounded resp.body l h2
    · unfold shapeTreeResp at h2
      rw [if_neg hs] at h2
      exact absurd h2 (json_error_ne_files _ _)

/-- A commits request whose response is a well-shaped array is rendered
exactly as its shaped commits. -/
theorem getRecentCommits_eq (env : GitLabEnv) (project : String) (limit : Nat)
    (resp : HttpResp) (data commits : List Json)
    (hresp : env.httpGet (commitsUrl env.gitlab_url project) [("per_page", toString limit)]
        = Except.ok resp)
    (hstatus : resp.status_code = 200)
    (hbody : resp.body = Json.arr data)
    (hshape : mapOption shapeCommit data = some commits) :
    getRecentCommits env project limit = commits := by
  unfold getRecentCommits
  rw [hresp]
  show shapeCommitsResp resp = commits
  unfold shapeCommitsResp
  rw [if_pos hstatus, hbody]
  simp only [shapeCommitsBody]
  rw [hshape]

/-- A shaped commit whose `id` field is a string has an id of at most
seven characters. -/
theorem shapeCommit_id_short (x c : Json) (h : shapeCommit x = some c)
    (fs : List (String × Json)) (hc : c = Json.obj fs)
    (s : String) (hid : jget fs ("id") = Json.str s) : s.length ≤ 7 := by
  subst hc
  cases x with
  | obj xfs =>
    simp only [shapeCommit] at h
    cases hg : jgetD xfs ("id") (Json.str ("")) with
    | str s0 =>
      rw [hg] at h
      injection h with h2
      injection h2 with h3
      rw [← h3] at hid
      unfold jget jgetD at hid
      rw [if_pos rfl] at hid
      injection hid with h4
      rw [← h4, String.length_mk]
      exact List.length_take_le 7 s0.data
    | arr xs =>
      rw [hg] at h
      injection h with h2
      injection h2 with h3
      rw [← h3] at hid
      unfold jget jgetD at hid
      rw [if_pos rfl] at hid
      exact Json.noConfusion hid
    | null => rw [hg] at h; exact Option.noConfusion h
    | bool b => rw [hg] at h; exact Option.noConfusion h
    | int n => rw [hg] at h; exact Option.noConfusion h
    | obj fs2 => rw [hg] at h; exact Option.noConfusion h
  | null => exact Option.noConfusion h
  | bool b => exact Option.noConfusion h
  | int n => exact Option.noConfusion h
  | str s2 => exact Option.noConfusion h
  | arr xs => exact Option.noConfusion h

/-- C9 counterexample: a server that ignores `per_page` and answers the
`limit = 5` request with six commits makes `_get_recent_commits` return
six entries — the claim that the commit list contains at most the
requested limit fails, because the code never truncates client-side. -/
theorem getRecentCommits_exceeds_requested_limit :
    (getRecentCommits sixCommitsEnv ("group/proj") 5).length = 6
    ∧ ¬ ((getRecentCommits sixCommitsEnv ("group/proj") 5).length ≤ 5) := by
  constructor
  · rfl
  · decide

/-- C9 (amended): the per-request data volume is bounded as follows: the
file-structure result never carries more than 20 entries
(unconditionally, because of the client-side `[:20]` slice); the commits
request passes `per_page=limit` to the server, and whenever the server's
response array respects that limit the returned commit list does too
(the code itself does not truncate); and every shaped commit whose `id`
field is a string carries at most its first 7 characters. -/
theorem gitlab_data_volume_bounds (env : GitLabEnv) (project : String) (limit : Nat)
    (resp : HttpResp) (data commits : List Json)
    (hresp : env.httpGet (commitsUrl env.gitlab_url project) [("per_page", toString limit)]
        = Except.ok resp)
    (hstatus : resp.status_code = 200)
    (hbody : resp.body = Json.arr data)
    (hshape : mapOption shapeCommit data = some commits)
    (hbound : data.length ≤ limit) :
    (∀ l, getFileStructure env project "" = Json.obj [("files", Json.arr l)] → l.length ≤ 20)
    ∧ getRecentCommits env project limit = commits
    ∧ (getRecentCommits env project limit).length ≤ limit
    ∧ (∀ c ∈ commits, ∀ fs, c = Json.obj fs →
        ∀ s, jget fs ("id") = Json.str s → s.length ≤ 7) := by
  have hrun := getRecentCommits_eq env project limit resp data commits hresp hstatus hbody hshape
  refine ⟨fun l hl => getFileStructure_files_bounded env project ("") l hl, hrun, ?_, ?_⟩
  · rw [hrun, mapOption_length shapeCommit data commits hshape]
    exact hbound
  · intro c hc fs hcfs s hid
    obtain ⟨x, hx, hsx⟩ := mapOption_mem shapeCommit data commits hshape c hc
    exact shapeCommit_id_short x c hsx fs hcfs s hid

/-- Witness for the amended C9: a server answering with one commit under
`limit = 5` yields exactly the one shaped commit, within the limit. -/
theorem gitlab_data_volume_bounds_witness :
    getRecentCommits oneCommitEnv ("group/proj") 5 = [oneShapedCommit]
    ∧ (getRecentCommits oneCommitEnv ("group/proj") 5).length ≤ 5 := by
  have h := gitlab_data_volume_bounds oneCommitEnv ("group/proj") 5 oneCommitResp
      [Json.obj [("id", Json.str ("abcdef123456"))]] [oneShapedCommit]
      rfl rfl rfl rfl (by decide)
  exact ⟨h.2.1, h.2.2.1⟩
